import Mathlib

/-!
# Verification of the Newton's-cradle orchestration layer

Shallow embedding of the repository's physics-orchestration code
(animation-loop timestep clamping, soft-body rope node initialization,
per-frame string synchronization with non-finite fallback, rigid-body
builder rebuild/teardown, impulse application, capability probing and
drag-release impulse computation), with theorems settling the frozen
claims about it.

JavaScript numbers are modelled as exact rationals (`ℚ`); where the code
distinguishes finite from non-finite values via `isFinite`, a dedicated
type `JSNum` records finiteness explicitly.
-/

namespace NewtonPendulum

/-! ## Common vector and number types -/

/-- A JavaScript number as observed through `isFinite`: either a finite
value (modelled exactly as a rational) or a non-finite value
(`NaN`/`Infinity`/`-Infinity`), which the sync code treats uniformly. -/
inductive JSNum where
  | fin (q : ℚ)
  | nonfinite
deriving DecidableEq

/-- `isFinite(x)` on a `JSNum`. -/
def JSNum.isFinite : JSNum → Bool
  | .fin _ => true
  | .nonfinite => false

/-- A 3-component vector of rationals (a `btVector3`/`THREE.Vector3`
whose components are known finite). -/
structure V3 where
  x : ℚ
  y : ℚ
  z : ℚ
deriving DecidableEq

/-- Componentwise vector difference (`THREE.Vector3.subVectors`). -/
def v3sub (a b : V3) : V3 := ⟨a.x - b.x, a.y - b.y, a.z - b.z⟩

/-- Scalar multiplication (`THREE.Vector3.multiplyScalar`). -/
def v3scale (c : ℚ) (v : V3) : V3 := ⟨c * v.x, c * v.y, c * v.z⟩

/-! ## Animation-loop timestep clamping

From `src/newton-pendulum/src/main.js`, `animate` (lines 300-311), and
`src/unnamed/part_007`, `animate` (lines 86-106). Both compute the delta
passed to the physics step from the real frame delta `d` (seconds). -/

/-- `main.js` lines 307-308: `if (deltaTime > 0.2) deltaTime = 0.2`,
then `physicsWorld.stepSimulation(deltaTime, 10)` receives the result. -/
def animateDeltaMain (d : ℚ) : ℚ :=
  if d > 1/5 then 1/5 else d

/-- `part_007` line 96: `const cappedDelta = Math.min(deltaTime, 0.2)`,
then `stepPhysics(cappedDelta)`. -/
def animateDeltaCapped (d : ℚ) : ℚ :=
  min d (1/5)

/-! ## Drag-release impulse

From `src/newton-pendulum/src/controls.js`, `releaseConstraint`
(lines 246-288). The drag history is a list of (position, time-in-ms)
samples; on release, the first and last samples yield a velocity that is
passed to `applyImpulse` as-is. -/

/-- `controls.js` lines 253-271: requires at least two samples, takes the
first and last, and when `last.time - first.time > 0` computes
`(last.position - first.position) * (1000 / (last.time - first.time)) * 2`,
which is applied as the impulse. Returns `none` when no impulse is applied. -/
def releaseImpulse (history : List (V3 × ℚ)) : Option V3 :=
  if 2 ≤ history.length then
    let first := history.headD (⟨0, 0, 0⟩, 0)
    let last := history.getLastD (⟨0, 0, 0⟩, 0)
    if last.2 - first.2 > 0 then
      some (v3scale ((1000 / (last.2 - first.2)) * 2) (v3sub last.1 first.1))
    else
      none
  else
    none

/-! ## Soft-body capability probing

From `src/newton-pendulum/src/physics.js`, `initPhysics` (lines 75-89),
and `src/src/physics/core.js`, `checkSoftBodyCapability` (lines 57-69).
The four soft-body entry points required per `docs/ammo-softbody-api.md`
are `btSoftBodyHelpers`, `btSoftBodyWorldInfo`,
`btSoftRigidDynamicsWorld` and `btSoftBodyRigidBodyCollisionConfiguration`;
each probe records whether `typeof physics.btX === 'function'`. -/

/-- The outcome of the four `typeof` probes against the loaded module. -/
structure ModuleProbes where
  helpers : Bool
  worldInfo : Bool
  softRigidWorld : Bool
  collisionConfig : Bool
deriving DecidableEq

/-- `physics.js` lines 78-83: `hasSoftBodySupport` is the conjunction of
all four probes. -/
def npHasSoftBodySupport (m : ModuleProbes) : Bool :=
  m.helpers && m.worldInfo && m.softRigidWorld && m.collisionConfig

/-- `core.js` lines 58-69: `checkSoftBodyCapability` checks only the
`btSoftBodyHelpers`, `btSoftBodyWorldInfo` and `btSoftRigidDynamicsWorld`
probes; `initPhysics` (line 90, line 154) uses its result as
`hasSoftBodySupport`. -/
def coreHasSoftBodySupport (m : ModuleProbes) : Bool :=
  m.helpers && m.worldInfo && m.softRigidWorld

/-! ## Physics stepping with default delta

From `src/src/physics/index.js`, `updatePhysics` (lines 44-64), and
`src/src/physics/core.js`, `stepPhysics` (lines 163-185). -/

/-- `core.js` `stepPhysics`: when the world is present, the delta is
passed unchanged to `physicsWorld.stepSimulation`; the result records
the first argument of that call (`none` when no step occurs). -/
def stepPhysicsDelta (worldPresent : Bool) (deltaTime : ℚ) : Option ℚ :=
  if worldPresent then some deltaTime else none

/-- `index.js` `updatePhysics(cradle, deltaTime = 1/60)`: returns early
when not initialized, else calls `stepPhysics(deltaTime)`; an omitted
argument is the JavaScript default `1/60`. -/
def updatePhysicsDelta (initialized worldPresent : Bool) (deltaTime : Option ℚ) :
    Option ℚ :=
  if initialized then stepPhysicsDelta worldPresent (deltaTime.getD (1/60)) else none

/-! ## Impulse application on a tracked ball body

From `src/src/physics/rigidBodies.js`, `applyImpulse` (lines 214-240).
A tracked body records whether it has been activated and the impulses
applied to it; a `none` entry models a null slot. -/

/-- A tracked rigid body's interaction-relevant state. -/
structure BallBody where
  activated : Bool
  impulses : List V3
deriving DecidableEq

/-- `rigidBodies.js` lines 214-240: returns untouched unless physics is
initialized, `0 <= ballIndex < ballBodies.length`, and the slot is
non-null; otherwise activates the body and applies the central impulse. -/
def applyImpulseRB (physicsOk : Bool) (ballIndex : ℤ) (impulse : V3)
    (bodies : List (Option BallBody)) : List (Option BallBody) :=
  if !physicsOk then bodies
  else if ballIndex < 0 ∨ (bodies.length : ℤ) ≤ ballIndex then bodies
  else
    match bodies.getD ballIndex.toNat none with
    | none => bodies
    | some b =>
        bodies.set ballIndex.toNat
          (some { b with activated := true, impulses := b.impulses ++ [impulse] })

/-! ## Soft-body rope node initialization

From `src/unnamed/part_015`, `createSoftBodyRope` (lines 136-248).
`createStringPhysics` (line 86) always calls it with
`fixedPoints = [0, 1]`. The engine's `CreateRope` returns a node array
of size `numNodes`; `ammoPoints` holds `numSegments + 1` interpolated
points (`numPoints` below). The initialization loop (lines 208-228)
walks every node index `i < numNodes`; when `ammoPoints[i]` is
undefined (`i ≥ numPoints`) it skips the node (`continue`), leaving the
inverse mass assigned earlier by `CreateRope`/`setTotalMass` (modelled
by the abstract `engineIm`); otherwise it sets the node's inverse mass
to `0` when `i` is a member of `fixedPoints` and to
`1 / (softBodyConfig.mass / numNodes)` when it is not. -/

/-- The `fixedPoints` argument passed by `createStringPhysics`
(`part_015` line 86): the literal list `[0, 1]`. -/
def ropeFixedPoints : List ℤ := [0, 1]

/-- Final inverse mass of node `i` after the `part_015` initialization
loop (lines 208-228), with `engineIm` the inverse masses left by the
engine's `CreateRope`/`setTotalMass` before the loop. -/
def ropeNodeInvMass (numNodes numPoints : ℕ) (mass : ℚ) (engineIm : ℕ → ℚ)
    (i : ℕ) : ℚ :=
  if i < numNodes ∧ i < numPoints then
    if (i : ℤ) ∈ ropeFixedPoints then 0 else 1 / (mass / (numNodes : ℚ))
  else engineIm i

/-- `part_015` line 235: the ball-side anchor is appended only when
`fixedPoints.includes(numNodes - 1)` holds. -/
def ballAnchorGuard (numNodes : ℕ) : Bool :=
  decide (((numNodes : ℤ) - 1) ∈ ropeFixedPoints)

/-! ## Per-frame string synchronization

From `src/newton-pendulum/src/physics/softBodies.js`,
`updateSoftBodyStrings` (lines 220-336), and `src/unnamed/part_015`,
`updateSoftBodyStrings` (lines 272-385) with its helpers
`createFallbackStringGeometry` (lines 388-407) and
`updateStringGeometry` (lines 410-439). Both revisions share the same
inner loop (softBodies.js lines 256-292, part_015 lines 320-354): each
node position is read and validated with `isFinite`; a valid read is
written to the polyline, an invalid one is replaced by the previous
polyline entry when `j > 0` and that entry's x is finite, else by an
interpolated point between the frame top and the ball surface. -/

/-- Per-string parameters read from the visual scene: the ball's x and
y position, its radius, and the top frame's y position. -/
structure SyncParams where
  ballX : ℚ
  ballY : ℚ
  ballRadius : ℚ
  frameTopY : ℚ
deriving DecidableEq

/-- A node position as read from the soft body (`node.get_m_x()`),
coordinate by coordinate. -/
structure NVec where
  x : JSNum
  y : JSNum
  z : JSNum
deriving DecidableEq

instance : Inhabited NVec := ⟨⟨.nonfinite, .nonfinite, .nonfinite⟩⟩

/-- `isFinite(x) && isFinite(y) && isFinite(z)` — the validity check on
one node read. -/
def validRead (v : NVec) : Bool :=
  v.x.isFinite && v.y.isFinite && v.z.isFinite

/-- The interpolated fallback entry (softBodies.js lines 280-289,
part_015 lines 342-351): `t = j / (numNodes - 1)`,
`x = ball.position.x`, `y = frameTopY + (ballY + radius - frameTopY) * t`,
`z = 0`. For `numNodes = 1` JavaScript's `j / 0` is non-finite and
poisons the computed `y`. -/
def fallbackEntry (P : SyncParams) (numNodes j : ℕ) : NVec :=
  if numNodes = 1 then ⟨.fin P.ballX, .nonfinite, .fin 0⟩
  else
    ⟨.fin P.ballX,
     .fin (P.frameTopY +
       ((P.ballY + P.ballRadius) - P.frameTopY) * ((j : ℚ) / ((numNodes : ℚ) - 1))),
     .fin 0⟩

/-- The polyline entry produced for one node read: the read itself when
valid, otherwise the previous polyline entry when it exists and its x
coordinate is finite, otherwise the interpolated fallback. -/
def syncEntry (P : SyncParams) (numNodes : ℕ) (prev : Option NVec) (j : ℕ)
    (r : NVec) : NVec :=
  if validRead r then r
  else
    match prev with
    | some p => if p.x.isFinite then p else fallbackEntry P numNodes j
    | none => fallbackEntry P numNodes j

/-- The node loop: walks the reads in order, producing the polyline
entries and the `hasValidPositions` flag (set when at least one read is
valid). `prev` is the polyline entry at `j - 1` (`none` at `j = 0`). -/
def syncNodesAux (P : SyncParams) (numNodes : ℕ) :
    Option NVec → ℕ → Bool → List NVec → List NVec × Bool
  | _, _, hv, [] => ([], hv)
  | prev, j, hv, r :: rs =>
      let e := syncEntry P numNodes prev j r
      let rest := syncNodesAux P numNodes (some e) (j + 1) (hv || validRead r) rs
      (e :: rest.1, rest.2)

/-- The full loop over a string's node reads. -/
def syncNodes (P : SyncParams) (reads : List NVec) : List NVec × Bool :=
  syncNodesAux P reads.length none 0 false reads

/-- Effect of one string update on the visual string: the geometry
written (`none` = untouched) and the `visible` flag written
(`none` = untouched). -/
structure StringUpdateResult where
  geometry : Option (List NVec)
  visible : Option Bool
deriving DecidableEq

/-- `softBodies.js` lines 244-327: with zero nodes the string is
skipped; with at least one valid position the geometry is written and
`string.visible = true`; with none, the geometry is left alone and
`string.visible = false`. -/
def updateStringA (P : SyncParams) (reads : List NVec) : StringUpdateResult :=
  if reads.length = 0 then ⟨none, none⟩
  else
    let r := syncNodes P reads
    if r.2 then ⟨some r.1, some true⟩ else ⟨none, some false⟩

/-- `part_015` `createFallbackStringGeometry` (lines 388-407): a
two-point straight line from the frame attachment to the ball surface. -/
def fallbackTwoPoint (P : SyncParams) : List NVec :=
  [⟨.fin P.ballX, .fin P.frameTopY, .fin 0⟩,
   ⟨.fin P.ballX, .fin (P.ballY + P.ballRadius), .fin 0⟩]

/-- `part_015` lines 300-385: with zero nodes, or with no valid
positions, the two-point fallback geometry is drawn via
`updateStringGeometry`, which ends with `string.visible = true`
(line 438); with at least one valid position the polyline is written,
also via `updateStringGeometry`. The visible flag is therefore set to
true on every path. -/
def updateStringB (P : SyncParams) (reads : List NVec) : StringUpdateResult :=
  if reads.length = 0 then ⟨some (fallbackTwoPoint P), some true⟩
  else
    let r := syncNodes P reads
    if r.2 then ⟨some r.1, some true⟩ else ⟨some (fallbackTwoPoint P), some true⟩

/-! ## Rigid-body builder

From `src/src/physics/rigidBodies.js`: `createPhysicsBodies`
(lines 10-39), `createFloorBody` (lines 42-91), `createFrameBodies`
(lines 94-158), `createBallBodies` (lines 161-211) and `clearBodies`
(lines 264-293). Bodies are identified by distinct ids allocated from a
counter (each `new physics.btRigidBody(...)` is a fresh native object);
the world and the two tracking arrays hold body ids. -/

/-- The cradle as seen by the builder: the number of children named
`frame_*`, the number named `ball_*`, and whether a child named `floor`
exists. -/
structure Cradle where
  numFrames : ℕ
  numBalls : ℕ
  hasFloor : Bool
deriving DecidableEq

/-- Builder-relevant mutable state: the physics world's rigid-body set
and the module-level `ballBodies`/`frameBodies` tracking arrays. -/
structure RBState where
  world : List ℕ
  ballBodies : List ℕ
  frameBodies : List ℕ
  nextId : ℕ
deriving DecidableEq

/-- `clearBodies` (lines 264-293): removes every tracked ball body from
the world, empties `ballBodies`, removes every tracked frame body,
empties `frameBodies`. -/
def clearBodies (s : RBState) : RBState :=
  { world := (s.world.filter (fun b => decide (b ∉ s.ballBodies))).filter
      (fun b => decide (b ∉ s.frameBodies)),
    ballBodies := [],
    frameBodies := [],
    nextId := s.nextId }

/-- One `forEach` creation loop: each iteration constructs a fresh body,
adds it to the world (`physicsWorld.addRigidBody(body)`) and pushes it
onto a tracking array. -/
def addBodies (n : ℕ) (world tracked : List ℕ) (next : ℕ) :
    List ℕ × List ℕ × ℕ :=
  match n with
  | 0 => (world, tracked, next)
  | n + 1 => addBodies n (world ++ [next]) (tracked ++ [next]) (next + 1)

/-- `createPhysicsBodies` (lines 10-39): returns null with no state
change when the physics handle or world is absent; otherwise clears all
existing bodies, then creates frame bodies, ball bodies and the floor
body (the floor, when present, is pushed onto `frameBodies`,
line 85), and returns the tracked collections. -/
def createPhysicsBodies (physicsOk worldOk : Bool) (c : Cradle) (s : RBState) :
    Option (ℕ × ℕ) × RBState :=
  if physicsOk && worldOk then
    let s0 := clearBodies s
    let r1 := addBodies c.numFrames s0.world [] s0.nextId
    let r2 := addBodies c.numBalls r1.1 [] r1.2.2
    let r3 :=
      if c.hasFloor then addBodies 1 r2.1 r1.2.1 r2.2.2
      else (r2.1, r1.2.1, r2.2.2)
    (some (r2.2.1.length, r3.2.1.length), ⟨r3.1, r2.2.1, r3.2.1, r3.2.2⟩)
  else (none, s)

/-! ## Helper lemmas -/

/-- `getLastD` of a list ending in `a` is `a`. -/
theorem getLastD_append_singleton {α : Type} (l : List α) (a : α) :
    ∀ d, (l ++ [a]).getLastD d = a := by
  induction l with
  | nil => intro d; rfl
  | cons x xs ih =>
      intro d
      rw [List.cons_append, List.getLastD_cons]
      exact ih x

/-- Unfolding of the node loop on a cons cell. -/
theorem syncNodesAux_cons (P : SyncParams) (n : ℕ) (prev : Option NVec) (j : ℕ)
    (hv : Bool) (r : NVec) (rs : List NVec) :
    syncNodesAux P n prev j hv (r :: rs) =
      (syncEntry P n prev j r ::
        (syncNodesAux P n (some (syncEntry P n prev j r)) (j + 1)
          (hv || validRead r) rs).1,
       (syncNodesAux P n (some (syncEntry P n prev j r)) (j + 1)
          (hv || validRead r) rs).2) := rfl

/-- The loop's `hasValidPositions` flag is the disjunction of the
incoming flag with "some read is valid". -/
theorem syncNodesAux_snd (P : SyncParams) (n : ℕ) :
    ∀ (rs : List NVec) (prev : Option NVec) (j : ℕ) (hv : Bool),
      (syncNodesAux P n prev j hv rs).2 = (hv || rs.any validRead) := by
  intro rs
  induction rs with
  | nil => intro prev j hv; simp [syncNodesAux]
  | cons r rs ih =>
      intro prev j hv
      rw [syncNodesAux_cons]
      simp [ih, Bool.or_assoc]

/-- An invalid read next to a previous entry with finite x copies the
previous entry. -/
theorem syncEntry_copy (P : SyncParams) (n : ℕ) (p : NVec) (j : ℕ) (r : NVec)
    (hr : validRead r = false) (hp : p.x.isFinite = true) :
    syncEntry P n (some p) j r = p := by
  simp [syncEntry, hr, hp]

/-- Copy-previous law for the node loop, generalized over the loop
state: at an invalid read with index `k > 0`, if the produced entry at
`k - 1` is all-finite then the entry at `k` equals it. -/
theorem syncNodesAux_copy (P : SyncParams) (n : ℕ) :
    ∀ (rs : List NVec) (prev : Option NVec) (j : ℕ) (hv : Bool) (k : ℕ),
      0 < k → k < rs.length →
      validRead (rs.getD k default) = false →
      validRead ((syncNodesAux P n prev j hv rs).1.getD (k - 1) default) = true →
      (syncNodesAux P n prev j hv rs).1.getD k default =
        (syncNodesAux P n prev j hv rs).1.getD (k - 1) default := by
  intro rs
  induction rs with
  | nil =>
      intro prev j hv k hk0 hklen hinv hfin
      simp at hklen
  | cons r rs ih =>
      intro prev j hv k hk0 hklen hinv hfin
      obtain ⟨k', rfl⟩ : ∃ k', k = k' + 1 := ⟨k - 1, by omega⟩
      rw [syncNodesAux_cons] at hfin ⊢
      rcases Nat.eq_zero_or_pos k' with rfl | hk'
      · cases rs with
        | nil => simp at hklen
        | cons r₂ rs₂ =>
            simp only [Nat.add_sub_cancel, List.getD_cons_zero, List.getD_cons_succ]
              at hfin hinv ⊢
            rw [syncNodesAux_cons]
            simp only [List.getD_cons_zero]
            have hx : (syncEntry P n prev j r).x.isFinite = true := by
              simp [validRead] at hfin
              exact hfin.1.1
            exact syncEntry_copy P n _ (j + 1) r₂ hinv hx
      · obtain ⟨m, rfl⟩ : ∃ m, k' = m + 1 := ⟨k' - 1, by omega⟩
        simp only [Nat.add_sub_cancel, List.getD_cons_succ] at hfin hinv ⊢
        have hlen' : m + 1 < rs.length := by
          simpa using hklen
        have := ih (some (syncEntry P n prev j r)) (j + 1) (hv || validRead r)
          (m + 1) (by omega) hlen' hinv (by simpa using hfin)
        simpa using this

/-- Closed form of a creation loop: it appends the fresh ids
`next, next+1, ..., next+n-1` to the world and the tracking list and
advances the counter. -/
theorem addBodies_eq (n : ℕ) :
    ∀ (w t : List ℕ) (k : ℕ),
      addBodies n w t k = (w ++ List.range' k n, t ++ List.range' k n, k + n) := by
  induction n with
  | zero => intro w t k; simp [addBodies]
  | succ n ih =>
      intro w t k
      rw [addBodies, ih]
      simp only [List.append_assoc, List.singleton_append, Prod.mk.injEq]
      refine ⟨?_, ?_, by omega⟩
      · rw [← List.range'_succ]
      · rw [← List.range'_succ]

/-- Canonical form of the builder's state after a successful call. -/
theorem createPhysicsBodies_snd (c : Cradle) (s : RBState) :
    (createPhysicsBodies true true c s).2 =
      { world := (((clearBodies s).world ++ List.range' s.nextId c.numFrames) ++
            List.range' (s.nextId + c.numFrames) c.numBalls) ++
            List.range' (s.nextId + c.numFrames + c.numBalls)
              (if c.hasFloor then 1 else 0),
        ballBodies := List.range' (s.nextId + c.numFrames) c.numBalls,
        frameBodies := List.range' s.nextId c.numFrames ++
          List.range' (s.nextId + c.numFrames + c.numBalls)
            (if c.hasFloor then 1 else 0),
        nextId := s.nextId + c.numFrames + c.numBalls +
          (if c.hasFloor then 1 else 0) } := by
  unfold createPhysicsBodies
  cases hf : c.hasFloor <;>
    simp [addBodies_eq, clearBodies, Nat.add_assoc]

/-- A fresh id range is disjoint from any list of smaller ids, so the
clearing filters keep such ids. -/
theorem filter_not_mem_range' (l : List ℕ) (bound s n : ℕ)
    (hl : ∀ b ∈ l, b < bound) (hs : bound ≤ s) :
    l.filter (fun b => decide (b ∉ List.range' s n)) = l := by
  refine List.filter_eq_self.mpr fun b hb => ?_
  rw [decide_eq_true_eq]
  intro hmem
  have := List.mem_range'_1.mp hmem
  have := hl b hb
  omega

/-- Clearing a world of the form "small ids, then three fresh ranges"
with tracking lists equal to those ranges removes exactly the fresh
ranges. -/
theorem clear_after_build (cw : List ℕ) (n0 F B fl : ℕ)
    (hcwlt : ∀ b ∈ cw, b < n0) :
    ((((cw ++ List.range' n0 F) ++ List.range' (n0 + F) B) ++
        List.range' (n0 + F + B) fl).filter
      (fun b => decide (b ∉ List.range' (n0 + F) B))).filter
      (fun b => decide (b ∉ (List.range' n0 F ++ List.range' (n0 + F + B) fl))) =
      cw := by
  have hcw1 : (cw.filter (fun b => decide (b ∉ List.range' (n0 + F) B))) = cw :=
    filter_not_mem_range' cw n0 (n0 + F) B hcwlt (by omega)
  have hR1 : ((List.range' n0 F).filter
      (fun b => decide (b ∉ List.range' (n0 + F) B))) = List.range' n0 F := by
    refine filter_not_mem_range' _ (n0 + F) _ _ ?_ (by omega)
    intro b hb
    have := List.mem_range'_1.mp hb
    omega
  have hR2 : ((List.range' (n0 + F) B).filter
      (fun b => decide (b ∉ List.range' (n0 + F) B))) = [] := by
    refine List.filter_eq_nil_iff.mpr fun b hb => ?_
    simp only [decide_eq_true_eq, not_not]
    exact hb
  have hR3 : ((List.range' (n0 + F + B) fl).filter
      (fun b => decide (b ∉ List.range' (n0 + F) B))) =
      List.range' (n0 + F + B) fl := by
    refine List.filter_eq_self.mpr fun b hb => ?_
    rw [decide_eq_true_eq]
    intro hmem
    have h1 := List.mem_range'_1.mp hmem
    have h2 := List.mem_range'_1.mp hb
    omega
  have hcw2 : (cw.filter (fun b => decide
      (b ∉ (List.range' n0 F ++ List.range' (n0 + F + B) fl)))) = cw := by
    refine List.filter_eq_self.mpr fun b hb => ?_
    rw [decide_eq_true_eq, List.mem_append]
    rintro (hmem | hmem) <;>
      · have h1 := List.mem_range'_1.mp hmem
        have h2 := hcwlt b hb
        omega
  have hR1f : ((List.range' n0 F).filter (fun b => decide
      (b ∉ (List.range' n0 F ++ List.range' (n0 + F + B) fl)))) = [] := by
    refine List.filter_eq_nil_iff.mpr fun b hb => ?_
    simp only [decide_eq_true_eq, not_not, List.mem_append]
    exact Or.inl hb
  have hR3f : ((List.range' (n0 + F + B) fl).filter (fun b => decide
      (b ∉ (List.range' n0 F ++ List.range' (n0 + F + B) fl)))) = [] := by
    refine List.filter_eq_nil_iff.mpr fun b hb => ?_
    simp only [decide_eq_true_eq, not_not, List.mem_append]
    exact Or.inr hb
  simp only [List.filter_append, hcw1, hR1, hR2, hR3, hcw2, hR1f, hR3f,
    List.append_nil]

/-- Clearing immediately after a successful build removes exactly the
freshly created bodies: the world returns to its post-clear content. -/
theorem clearBodies_create (c : Cradle) (s : RBState)
    (hwf : ∀ b ∈ s.world, b < s.nextId) :
    (clearBodies (createPhysicsBodies true true c s).2).world =
      (clearBodies s).world := by
  rw [createPhysicsBodies_snd]
  have hcwlt : ∀ b ∈ (clearBodies s).world, b < s.nextId := fun b hb =>
    hwf b (List.mem_of_mem_filter (List.mem_of_mem_filter hb))
  exact clear_after_build _ s.nextId c.numFrames c.numBalls _ hcwlt

/-! ## Theorems for the timestep-clamp claim -/

/-- C2: for every real frame delta `d`, the delta passed to
`stepSimulation` by the animation loop equals `min(d, 0.2)`, in both the
`main.js` and the `part_007` revisions; in particular for
`d ∈ {0.001, 0.2, 5.0}` the passed value is `0.001`, `0.2` and `0.2`. -/
theorem claim_C2_clamp_is_min :
    (∀ d : ℚ, animateDeltaMain d = min d (1/5) ∧ animateDeltaCapped d = min d (1/5)) ∧
    animateDeltaMain (1/1000) = 1/1000 ∧ animateDeltaMain (1/5) = 1/5 ∧
    animateDeltaMain 5 = 1/5 ∧
    animateDeltaCapped (1/1000) = 1/1000 ∧ animateDeltaCapped (1/5) = 1/5 ∧
    animateDeltaCapped 5 = 1/5 := by
  refine ⟨fun d => ⟨?_, rfl⟩, by norm_num [animateDeltaMain],
    by norm_num [animateDeltaMain], by norm_num [animateDeltaMain],
    by norm_num [animateDeltaCapped], by norm_num [animateDeltaCapped],
    by norm_num [animateDeltaCapped]⟩
  unfold animateDeltaMain
  rcases le_or_lt d (1/5) with h | h
  · rw [if_neg (not_lt.mpr h), min_eq_left h]
  · rw [if_pos h, min_eq_right h.le]

/-! ## Theorems for the drag-release impulse claim -/

/-- C6: on release after a drag with history `[(p0,t0), ..., (p1,t1)]`
and `t1 > t0`, the applied impulse is a positive scalar multiple of the
displacement `p1 - p0`, with scalar exactly `2000 * (1/(t1-t0))` —
parallel to the displacement and linear in `1/(t1-t0)`. -/
theorem claim_C6_release_impulse (p0 p1 : V3) (t0 t1 : ℚ) (mids : List (V3 × ℚ))
    (h : t0 < t1) :
    ∃ c : ℚ,
      releaseImpulse ((p0, t0) :: (mids ++ [(p1, t1)])) = some (v3scale c (v3sub p1 p0)) ∧
      c = 2000 * (1 / (t1 - t0)) ∧ 0 < c := by
  refine ⟨(1000 / (t1 - t0)) * 2, ?_, ?_, ?_⟩
  · unfold releaseImpulse
    have hlen : 2 ≤ ((p0, t0) :: (mids ++ [(p1, t1)])).length := by
      simp [List.length_append]
    rw [if_pos hlen]
    have hhead : ((p0, t0) :: (mids ++ [(p1, t1)])).headD (⟨0, 0, 0⟩, 0) = (p0, t0) := rfl
    have hlast : ((p0, t0) :: (mids ++ [(p1, t1)])).getLastD (⟨0, 0, 0⟩, 0) = (p1, t1) := by
      rw [show (p0, t0) :: (mids ++ [(p1, t1)]) = ((p0, t0) :: mids) ++ [(p1, t1)] from rfl]
      exact getLastD_append_singleton _ _ _
    rw [hhead, hlast]
    simp only
    rw [if_pos (by linarith : t1 - t0 > 0)]
  · have hne : t1 - t0 ≠ 0 := by linarith
    field_simp
    ring
  · have hpos : 0 < t1 - t0 := by linarith
    positivity

/-! ## Theorems for the capability-probe claim -/

/-- C7 counterexample: with `btSoftBodyHelpers`, `btSoftBodyWorldInfo`
and `btSoftRigidDynamicsWorld` present but
`btSoftBodyRigidBodyCollisionConfiguration` absent (one of the four
probes fails), the `core.js` world factory still sets
`hasSoftBodySupport = true`, contradicting the claim that any failing
probe forces the flag to false. -/
theorem claim_C7_counterexample :
    coreHasSoftBodySupport ⟨true, true, true, false⟩ = true ∧
    (ModuleProbes.mk true true true false).collisionConfig = false := by
  decide

/-- C7 amended: the `newton-pendulum/src/physics.js` factory sets the
flag true exactly when all four probes succeed, while the
`src/src/physics/core.js` factory probes only three entry points — its
flag is true exactly when those three succeed, independently of the
`btSoftBodyRigidBodyCollisionConfiguration` probe. -/
theorem claim_C7_amended (m : ModuleProbes) :
    (npHasSoftBodySupport m = true ↔
      m.helpers = true ∧ m.worldInfo = true ∧ m.softRigidWorld = true ∧
      m.collisionConfig = true) ∧
    (coreHasSoftBodySupport m = true ↔
      m.helpers = true ∧ m.worldInfo = true ∧ m.softRigidWorld = true) ∧
    coreHasSoftBodySupport m =
      coreHasSoftBodySupport ⟨m.helpers, m.worldInfo, m.softRigidWorld, true⟩ := by
  obtain ⟨a, b, c, d⟩ := m
  revert a b c d
  decide

/-! ## Theorems for the default-timestep claim -/

/-- C9: when the system is initialized and the world present, a call to
`updatePhysics` that omits `deltaTime` passes exactly `1/60` to the
physics step, and the step pipeline applies no clamping: any provided
delta is passed through unchanged. -/
theorem claim_C9_default_step (initialized worldPresent : Bool)
    (hi : initialized = true) (hw : worldPresent = true) :
    updatePhysicsDelta initialized worldPresent none = some (1/60) ∧
    (∀ d : ℚ, updatePhysicsDelta initialized worldPresent (some d) = some d) := by
  subst hi hw
  exact ⟨rfl, fun d => rfl⟩

/-- Witness for C9 at concrete inputs. -/
theorem claim_C9_default_step_witness :
    updatePhysicsDelta true true none = some (1/60) ∧
    (∀ d : ℚ, updatePhysicsDelta true true (some d) = some d) :=
  claim_C9_default_step true true rfl rfl

/-! ## Theorems for the out-of-range impulse claim -/

/-- C10: for a ball index outside `[0, ballBodies.length)`,
`applyImpulse` leaves the tracked body list unchanged — no body is
activated and no impulse is recorded. -/
theorem claim_C10_out_of_range (physicsOk : Bool) (ballIndex : ℤ) (impulse : V3)
    (bodies : List (Option BallBody))
    (h : ballIndex < 0 ∨ (bodies.length : ℤ) ≤ ballIndex) :
    applyImpulseRB physicsOk ballIndex impulse bodies = bodies := by
  unfold applyImpulseRB
  cases physicsOk with
  | false => rfl
  | true => simp [h]

/-- Witness for C10: index 5 on a one-element list is rejected without
any state change. -/
theorem claim_C10_out_of_range_witness :
    applyImpulseRB true 5 ⟨1, 2, 3⟩ [some ⟨false, []⟩] = [some ⟨false, []⟩] :=
  claim_C10_out_of_range true 5 ⟨1, 2, 3⟩ [some ⟨false, []⟩] (by norm_num)

/-- Witness for C6 at concrete inputs: a two-sample history released
after 500 ms. -/
theorem claim_C6_release_impulse_witness :
    ∃ c : ℚ,
      releaseImpulse [(⟨0, 0, 0⟩, 0), (⟨1, 2, 3⟩, 500)] =
        some (v3scale c (v3sub ⟨1, 2, 3⟩ ⟨0, 0, 0⟩)) ∧
      c = 2000 * (1 / (500 - 0)) ∧ 0 < c := by
  have h := claim_C6_release_impulse ⟨0, 0, 0⟩ ⟨1, 2, 3⟩ 0 500 [] (by norm_num)
  simpa using h

/-! ## Theorems for the rope node-mass claim -/

/-- C1 counterexample: for a rope with `N = 5` nodes built through
`createSoftBodyRope` (which receives `fixedPoints = [0, 1]`) and the
configured soft-body mass `0.01`, the internal node `i = 1` (which
satisfies `0 < i < N - 1`) receives inverse mass `0`, not a strictly
positive value: the fixed-point list is interpreted as the node indices
`{0, 1}`, not as the endpoints `{0, N-1}` the claim assumes. -/
theorem claim_C1_counterexample :
    ropeNodeInvMass 5 5 (1/100) (fun _ => 1) 1 = 0 ∧
    (0 : ℕ) < 1 ∧ (1 : ℕ) < 5 - 1 ∧ (0 : ℚ) < 1/100 := by
  refine ⟨?_, by norm_num, by norm_num, by norm_num⟩
  norm_num [ropeNodeInvMass, ropeFixedPoints]

/-- C1 amended: for a rope built by `createSoftBodyRope` with
`fixedPoints = [0, 1]`, positive configured mass, and `numPoints`
interpolation points (`numPoints ≤ numNodes`): nodes `0` and `1` get
inverse mass `0`; every node `i` with `2 ≤ i < numPoints` gets the
strictly positive value `numNodes / mass` derived from the configured
mass; nodes at indices `≥ numPoints` (in particular the last node when
the engine creates more nodes than interpolation points) keep the
engine-assigned inverse mass, because the loop skips them; and for
`numNodes ≥ 3` the ball-side anchor guard
`fixedPoints.includes(numNodes - 1)` is false, so the last node is
never treated as a fixed endpoint. -/
theorem claim_C1_amended (numNodes numPoints : ℕ) (mass : ℚ) (engineIm : ℕ → ℚ)
    (hpts : 2 ≤ numPoints) (hnp : numPoints ≤ numNodes) (hm : 0 < mass) :
    ropeNodeInvMass numNodes numPoints mass engineIm 0 = 0 ∧
    ropeNodeInvMass numNodes numPoints mass engineIm 1 = 0 ∧
    (∀ i, 2 ≤ i → i < numPoints →
      ropeNodeInvMass numNodes numPoints mass engineIm i = (numNodes : ℚ) / mass ∧
      0 < ropeNodeInvMass numNodes numPoints mass engineIm i) ∧
    (∀ i, numPoints ≤ i →
      ropeNodeInvMass numNodes numPoints mass engineIm i = engineIm i) ∧
    (3 ≤ numNodes → ballAnchorGuard numNodes = false) := by
  have hn0 : 0 < numNodes := by omega
  refine ⟨?_, ?_, ?_, ?_, ?_⟩
  · rw [ropeNodeInvMass, if_pos ⟨by omega, by omega⟩,
      if_pos (by simp [ropeFixedPoints])]
  · rw [ropeNodeInvMass, if_pos ⟨by omega, by omega⟩,
      if_pos (by simp [ropeFixedPoints])]
  · intro i h2 hlt
    have hval : ropeNodeInvMass numNodes numPoints mass engineIm i =
        (numNodes : ℚ) / mass := by
      rw [ropeNodeInvMass, if_pos ⟨by omega, hlt⟩, if_neg ?_, one_div_div]
      simp only [ropeFixedPoints, List.mem_cons, List.not_mem_nil, or_false]
      push_neg
      omega
    refine ⟨hval, ?_⟩
    rw [hval]
    exact div_pos (by exact_mod_cast hn0) hm
  · intro i hge
    rw [ropeNodeInvMass, if_neg (by omega)]
  · intro h3
    rw [ballAnchorGuard, decide_eq_false_iff_not]
    simp only [ropeFixedPoints, List.mem_cons, List.not_mem_nil, or_false]
    push_neg
    omega

/-- Witness for C1 amended at `numNodes = 6`, `numPoints = 5`,
`mass = 0.01`, engine inverse masses `7`. -/
theorem claim_C1_amended_witness :
    ropeNodeInvMass 6 5 (1/100) (fun _ => 7) 1 = 0 ∧
    ropeNodeInvMass 6 5 (1/100) (fun _ => 7) 2 = (6 : ℚ) / (1/100) ∧
    ropeNodeInvMass 6 5 (1/100) (fun _ => 7) 5 = 7 ∧
    ballAnchorGuard 6 = false := by
  have h := claim_C1_amended 6 5 (1/100) (fun _ => 7)
    (by norm_num) (by norm_num) (by norm_num)
  exact ⟨h.2.1, (h.2.2.1 2 (by norm_num) (by norm_num)).1,
    h.2.2.2.1 5 (by norm_num), h.2.2.2.2 (by norm_num)⟩

/-! ## Theorems for the fallback-substitution claim -/

/-- C3: in the per-frame string sync, for every node index `k > 0`
whose read position is non-finite while the polyline entry at `k - 1`
is finite, the synthesized polyline entry at `k` equals the entry at
`k - 1` (all three coordinates copied). -/
theorem claim_C3_copy_previous (P : SyncParams) (reads : List NVec) (k : ℕ)
    (hk0 : 0 < k) (hklen : k < reads.length)
    (hinv : validRead (reads.getD k default) = false)
    (hfin : validRead ((syncNodes P reads).1.getD (k - 1) default) = true) :
    (syncNodes P reads).1.getD k default =
      (syncNodes P reads).1.getD (k - 1) default :=
  syncNodesAux_copy P reads.length reads none 0 false k hk0 hklen hinv hfin

/-- Witness for C3 at `k = 1` on a three-node string whose middle read
has a non-finite x coordinate. -/
theorem claim_C3_copy_previous_witness :
    (syncNodes ⟨1, 2, 1, 10⟩
        [⟨.fin 0, .fin 0, .fin 0⟩, ⟨.nonfinite, .fin 0, .fin 0⟩,
         ⟨.fin 1, .fin 1, .fin 1⟩]).1.getD 1 default =
      (syncNodes ⟨1, 2, 1, 10⟩
        [⟨.fin 0, .fin 0, .fin 0⟩, ⟨.nonfinite, .fin 0, .fin 0⟩,
         ⟨.fin 1, .fin 1, .fin 1⟩]).1.getD 0 default :=
  claim_C3_copy_previous ⟨1, 2, 1, 10⟩
    [⟨.fin 0, .fin 0, .fin 0⟩, ⟨.nonfinite, .fin 0, .fin 0⟩,
     ⟨.fin 1, .fin 1, .fin 1⟩] 1
    (by decide) (by decide) (by decide) (by decide)

/-! ## Theorems for the visibility claim -/

/-- C4 counterexample: in the `part_015` revision, a string frame with
zero all-finite node reads ends with the visible flag set to `true`
(the fallback two-point geometry is drawn), not `false` as the claim
states. -/
theorem claim_C4_counterexample :
    (updateStringB ⟨1, 2, 1, 10⟩
        [⟨.nonfinite, .nonfinite, .nonfinite⟩, ⟨.nonfinite, .fin 0, .fin 0⟩]).visible =
      some true ∧
    ([⟨.nonfinite, .nonfinite, .nonfinite⟩, ⟨.nonfinite, .fin 0, .fin 0⟩] :
        List NVec).all (fun r => !validRead r) = true := by
  decide

/-- C4 amended: with at least one node, the `softBodies.js` revision
sets the visible flag to true exactly when some read was all-finite and
to false when none was, while the `part_015` revision sets the flag to
true on every update (drawing a two-point fallback line when no read
was valid). -/
theorem claim_C4_amended (P : SyncParams) (reads : List NVec) (h : reads ≠ []) :
    (updateStringA P reads).visible = some (reads.any validRead) ∧
    (updateStringB P reads).visible = some true := by
  have hlen : ¬(reads.length = 0) := by
    simpa [List.length_eq_zero] using h
  have hv2 : (syncNodes P reads).2 = reads.any validRead := by
    simpa [syncNodes] using
      syncNodesAux_snd P reads.length reads none 0 false
  constructor
  · unfold updateStringA
    rw [if_neg hlen]
    simp only [hv2]
    cases hany : reads.any validRead <;> simp [hany]
  · unfold updateStringB
    rw [if_neg hlen]
    cases hc : (syncNodes P reads).2 <;> simp [hc]

/-- Witness for C4 amended on a concrete one-node string. -/
theorem claim_C4_amended_witness :
    (updateStringA ⟨1, 2, 1, 10⟩ [⟨.fin 0, .fin 0, .fin 0⟩]).visible =
      some (([⟨.fin 0, .fin 0, .fin 0⟩] : List NVec).any validRead) ∧
    (updateStringB ⟨1, 2, 1, 10⟩ [⟨.fin 0, .fin 0, .fin 0⟩]).visible = some true :=
  claim_C4_amended ⟨1, 2, 1, 10⟩ [⟨.fin 0, .fin 0, .fin 0⟩] (by decide)

/-! ## Theorems for the rebuild-idempotence claim -/

/-- C5: calling the rigid-body builder twice in a row on the same
cradle leaves exactly as many tracked ball bodies, tracked frame
bodies, and world bodies as a single call — the second call first
removes every previously tracked body and clears the tracking lists, so
no duplicates accumulate. `hwf` states that every body currently in the
world was allocated below the id counter. -/
theorem claim_C5_rebuild_idempotent (c : Cradle) (s : RBState)
    (hwf : ∀ b ∈ s.world, b < s.nextId) :
    ((createPhysicsBodies true true c
        (createPhysicsBodies true true c s).2).2).ballBodies.length =
      ((createPhysicsBodies true true c s).2).ballBodies.length ∧
    ((createPhysicsBodies true true c
        (createPhysicsBodies true true c s).2).2).frameBodies.length =
      ((createPhysicsBodies true true c s).2).frameBodies.length ∧
    ((createPhysicsBodies true true c
        (createPhysicsBodies true true c s).2).2).world.length =
      ((createPhysicsBodies true true c s).2).world.length := by
  have h1 := createPhysicsBodies_snd c s
  have h2 := createPhysicsBodies_snd c (createPhysicsBodies true true c s).2
  have hclear := clearBodies_create c s hwf
  refine ⟨?_, ?_, ?_⟩
  · rw [h2, h1]
    simp [List.length_append]
  · rw [h2, h1]
    simp [List.length_append]
  · rw [h2, hclear, h1]
    simp [List.length_append]

/-- Witness for C5 on an empty initial state and a 2-frame, 3-ball,
floored cradle. -/
theorem claim_C5_rebuild_idempotent_witness :
    ((createPhysicsBodies true true ⟨2, 3, true⟩
        (createPhysicsBodies true true ⟨2, 3, true⟩ ⟨[], [], [], 0⟩).2).2).ballBodies.length =
      ((createPhysicsBodies true true ⟨2, 3, true⟩ ⟨[], [], [], 0⟩).2).ballBodies.length ∧
    ((createPhysicsBodies true true ⟨2, 3, true⟩
        (createPhysicsBodies true true ⟨2, 3, true⟩ ⟨[], [], [], 0⟩).2).2).frameBodies.length =
      ((createPhysicsBodies true true ⟨2, 3, true⟩ ⟨[], [], [], 0⟩).2).frameBodies.length ∧
    ((createPhysicsBodies true true ⟨2, 3, true⟩
        (createPhysicsBodies true true ⟨2, 3, true⟩ ⟨[], [], [], 0⟩).2).2).world.length =
      ((createPhysicsBodies true true ⟨2, 3, true⟩ ⟨[], [], [], 0⟩).2).world.length :=
  claim_C5_rebuild_idempotent ⟨2, 3, true⟩ ⟨[], [], [], 0⟩ (by simp)

/-! ## Theorems for the engine-absent claim -/

/-- C8: when the physics module handle or the physics world is absent,
the rigid-body builder returns a null result and leaves the state
untouched: no bodies are added and the tracking lists are unchanged. -/
theorem claim_C8_engine_absent (physicsOk worldOk : Bool) (c : Cradle) (s : RBState)
    (h : physicsOk = false ∨ worldOk = false) :
    createPhysicsBodies physicsOk worldOk c s = (none, s) := by
  unfold createPhysicsBodies
  rcases h with h | h <;> subst h <;> simp

/-- Witness for C8: an absent module handle on a non-empty state. -/
theorem claim_C8_engine_absent_witness :
    createPhysicsBodies false true ⟨2, 3, true⟩ ⟨[5], [5], [], 6⟩ =
      (none, ⟨[5], [5], [], 6⟩) :=
  claim_C8_engine_absent false true ⟨2, 3, true⟩ ⟨[5], [5], [], 6⟩ (Or.inl rfl)

end NewtonPendulum
